import Mathlib

set_option maxRecDepth 16000
set_option maxHeartbeats 1000000

/-!
Shallow embedding of the dialect kernel/option resolution engine of
`src/bft/dialects/types.py` (repository `bft`), together with theorems
settling the frozen claims about it.

Python dictionaries are embedded as association lists; a dict literal or a
dict comprehension built from a sequence of pairs keeps the later binding for a
duplicated key, so the generic lookup `pyDictGet` gives the value of the last
matching pair.  Machine-independent data (strings, lists, booleans, the
`variadic_min` integer marker) is embedded directly.  The one exception raised
by the resolver (`raise Exception(...)` in `Dialect.__supports_case_kernel`)
is embedded with `Except`: `Except.error` is the raised defect, `Except.ok`
the normal return value.
-/

/-- Modelled from the spec: a Literal is a (type, value) pair; `CaseLiteral` is
declared in `src/bft/cases/types.py`, which is absent from the sources.  Only
the `type` field is ever inspected by the resolver. -/
structure CaseLiteral where
  type : String
  value : String
deriving DecidableEq

/-- Modelled from the spec: a case result is a Literal or one of the sentinels
`error` / `undefined` (Python annotation `CaseLiteral | Literal["error", "undefined"]`). -/
inductive CaseResult where
  | lit (l : CaseLiteral)
  | error
  | undefined
deriving DecidableEq

/-- Modelled from the spec: a Case groups the owning URI, the function name,
the ordered argument literals, the result, and the requested (key, value)
option pairs; declared in `src/bft/cases/types.py`, absent from the sources. -/
structure Case where
  base_uri : String
  function : String
  args : List CaseLiteral
  result : CaseResult
  options : List (String × String)
deriving DecidableEq

/-- Modelled from the spec: `Kernel` from `bft/core/function.py` (absent from
the sources); the direct kernel existence check probes its argument-type
sequence with plain positional equality. -/
structure Kernel where
  arg_types : List String
  result_type : String
deriving DecidableEq

/-- Python-dict lookup on an association list: a later binding of the same key
overrides an earlier one (last write wins), as in a dict literal or a dict
comprehension that revisits a key. -/
def pyDictGet {α : Type} : List (String × α) → String → Option α
  | [], _ => none
  | (k, v) :: rest, key =>
    match pyDictGet rest key with
    | some r => some r
    | none => if key = k then some v else none

/-- Character-list prefix test, by structural recursion (so that concrete
instances evaluate inside the kernel). -/
def isPre : List Char → List Char → Bool
  | [], _ => true
  | _ :: _, [] => false
  | c :: cs, d :: ds => if c = d then isPre cs ds else false

/-- Python `s.startswith(p)`: `p` is a prefix of `s`. -/
def pyStartsWith (s p : String) : Bool := isPre p.data s.data

/-- First-binding lookup in an association list.  Used for the per-attempt
wildcard binding map `any_map`, whose keys are inserted at most once per
attempt, so first-wins and dict semantics agree. -/
def amLookup : List (String × String) → String → Option String
  | [], _ => none
  | (k, v) :: rest, key => if key = k then some v else amLookup rest key

/-- The authoritative canonical-type-name to short-code table
(`type_to_short_type` in `src/bft/dialects/types.py`), in source order. -/
def type_to_short_type : List (String × String) := [
  ("required enumeration", "req"),
  ("i8", "i8"),
  ("i16", "i16"),
  ("i32", "i32"),
  ("i64", "i64"),
  ("fp32", "fp32"),
  ("fp64", "fp64"),
  ("string", "str"),
  ("binary", "vbin"),
  ("boolean", "bool"),
  ("timestamp", "ts"),
  ("timestamp_tz", "tstz"),
  ("date", "date"),
  ("time", "time"),
  ("interval_year", "iyear"),
  ("interval_day", "iday"),
  ("uuid", "uuid"),
  ("fixedchar<N>", "fchar"),
  ("varchar<N>", "vchar"),
  ("fixedbinary<N>", "fbin"),
  ("decimal<P,S>", "dec"),
  ("precision_timestamp<P>", "pts"),
  ("precision_timestamp_tz<P>", "ptstz"),
  ("struct<T1,T2,...,TN>", "struct"),
  ("list<T>", "list"),
  ("map<K,V>", "map"),
  ("map", "map"),
  ("any", "any"),
  ("any1", "any1"),
  ("any2", "any2"),
  ("any3", "any3"),
  ("user defined type", "u!name"),
  ("fixedchar", "fchar"),
  ("varchar", "vchar"),
  ("fixedbinary", "fbin"),
  ("decimal", "dec"),
  ("precision_timestamp", "pts"),
  ("precision_timestamp_tz", "ptstz"),
  ("struct", "struct"),
  ("list", "list"),
  ("geometry", "geometry")]

/-- `short_type_to_type = {st: lt for lt, st in type_to_short_type.items()}`:
the reversed pair list; looked up with `pyDictGet`, so a short code shared by
several canonical names resolves to the last canonical name in table order. -/
def short_type_to_type : List (String × String) :=
  type_to_short_type.map (fun p => (p.2, p.1))

/-- `DialectKernel`: one declared overload of a dialect function. -/
structure DialectKernel where
  arg_types : List String
  result_type : String
deriving DecidableEq

/-- `DialectFunction`: one catalog entry.  The Python fields `infix` and
`postfix` are embedded as `infixFlag` and `postfixFlag` (the originals are
unusable identifiers here); all other field names follow the source. -/
structure DialectFunction where
  name : String
  local_name : String
  infixFlag : Bool
  postfixFlag : Bool
  between : Bool
  aggregate : Bool
  unsupported : Bool
  extract : Bool
  required_options : List (String × String)
  variadic_min : Int
  supported_kernels : List DialectKernel
deriving DecidableEq

/-- `DialectFile`: a named catalog.  The Python field `uri_to_func_prefix` is
embedded as `uri_to_func_prefix_map`. -/
structure DialectFile where
  name : String
  type : String
  scalar_functions : List DialectFunction
  aggregate_functions : List DialectFunction
  uri_to_func_prefix_map : List (String × String)
deriving DecidableEq

/-- `SqlMapping`: the resolution result record. -/
structure SqlMapping where
  local_name : String
  infixFlag : Bool
  postfixFlag : Bool
  between : Bool
  aggregate : Bool
  unsupported : Bool
  extract : Bool
  should_pass : Bool
  reason : Option String
deriving DecidableEq

/-- The `Dialect` resolver state: the two name-indexed maps and the per-URI
prefix map, as built by `Dialect.__init__`. -/
structure Dialect where
  name : String
  scalar_functions_by_name : List (String × DialectFunction)
  aggregate_functions_by_name : List (String × DialectFunction)
  func_prefixes : List (String × String)
deriving DecidableEq

/-- `Dialect.__init__`: index the catalog's function lists by name. -/
def Dialect.ofFile (df : DialectFile) : Dialect :=
  { name := df.name
    scalar_functions_by_name := df.scalar_functions.map (fun f => (f.name, f))
    aggregate_functions_by_name := df.aggregate_functions.map (fun f => (f.name, f))
    func_prefixes := df.uri_to_func_prefix_map }

/-- Modelled from the spec: `case_to_kernel_str` lives in
`src/bft/cases/types.py`, absent from the sources; per the spec the
kernel-mismatch message includes the function name and the rendered kernel
signature (argument types and result type, in canonical-or-short names).  No
claim depends on the exact rendering. -/
def case_to_kernel_str (name : String) (args : List CaseLiteral) (result : CaseResult) : String :=
  let short := fun (t : String) => (pyDictGet type_to_short_type t).getD t
  let resultStr := match result with
    | CaseResult.lit l => short l.type
    | CaseResult.error => "error"
    | CaseResult.undefined => "undefined"
  name ++ "(" ++ String.intercalate ", " (args.map (fun a => short a.type)) ++ ")" ++
    " -> " ++ resultStr

/-- The effective required arity of `Dialect.__supports_case_kernel`:
`arg_len = 1 if dfunc.aggregate else len(args)`. -/
def effectiveArity (dfunc : DialectFunction) (args : List CaseLiteral) : Nat :=
  if dfunc.aggregate then 1 else args.length

/-- Python list repetition `l * n`. -/
def pyListMul (l : List String) : Nat → List String
  | 0 => []
  | Nat.succ n => l ++ pyListMul l n

/-- The inner unification loop of `Dialect.__supports_case_kernel`:
`for ktype, arg in zip(kernel_arg_types, args)` with the wildcard binding map
`any_map`, returning the final value of `matched`.  The second list holds the
argument literal types. -/
def kernelZipMatch (anyMap : List (String × String)) :
    List String → List String → Bool
  | ktype :: kts, atype :: ats =>
    if atype != ktype && !pyStartsWith ktype "any" then false
    else if pyStartsWith ktype "any" then
      match amLookup anyMap ktype with
      | none => kernelZipMatch ((ktype, atype) :: anyMap) kts ats
      | some t => if t != atype then false else kernelZipMatch anyMap kts ats
    else kernelZipMatch anyMap kts ats
  | _, _ => true

/-- The kernel loop of `Dialect.__supports_case_kernel`, with the
`arg_len_matched` flag as an accumulator.  `Except.error` embeds the
`raise Exception(...)` defect path; `Except.ok none` means some kernel
matched; `Except.ok (some reason)` is the ordinary unsupported outcome. -/
def Dialect.supportsCaseKernelAux (dialectName : String) (dfunc : DialectFunction)
    (args : List CaseLiteral) (result : CaseResult) :
    List DialectKernel → Bool → Except String (Option String)
  | [], argLenMatched =>
    if !argLenMatched then
      Except.error "Unreachable path.  Supported kernel with different # of types than case"
    else
      Except.ok (some ("The dialect " ++ dialectName ++ " does not support the kernel " ++
        case_to_kernel_str dfunc.name args result))
  | sk :: rest, argLenMatched =>
    if sk.arg_types.length != effectiveArity dfunc args && dfunc.variadic_min == -1 then
      Dialect.supportsCaseKernelAux dialectName dfunc args result rest argLenMatched
    else
      let kernelArgTypes :=
        if dfunc.variadic_min != -1 && sk.arg_types.length == 1 then
          pyListMul sk.arg_types args.length
        else sk.arg_types
      if kernelZipMatch [] kernelArgTypes (args.map (fun a => a.type)) then
        Except.ok none
      else
        Dialect.supportsCaseKernelAux dialectName dfunc args result rest true

/-- `Dialect.__supports_case_kernel`. -/
def Dialect.supports_case_kernel (d : Dialect) (dfunc : DialectFunction)
    (args : List CaseLiteral) (result : CaseResult) : Except String (Option String) :=
  Dialect.supportsCaseKernelAux d.name dfunc args result dfunc.supported_kernels false

/-- The loop body of `Dialect.__supports_options`:
`for case_opt, case_val in case.options`. -/
def optionsLoop (dialectName : String) (dfunc : DialectFunction) :
    List (String × String) → Option String
  | [] => none
  | (case_opt, case_val) :: rest =>
    match pyDictGet dfunc.required_options case_opt with
    | none => optionsLoop dialectName dfunc rest
    | some dval =>
      if dval != case_val then
        some ("The dialect " ++ dialectName ++ " expects " ++ case_opt ++ "=" ++ dval ++
          " but " ++ case_opt ++ "=" ++ case_val ++ " was requested")
      else optionsLoop dialectName dfunc rest

/-- `Dialect.__supports_options`. -/
def Dialect.supports_options (d : Dialect) (dfunc : DialectFunction) (c : Case) : Option String :=
  optionsLoop d.name dfunc c.options

/-- The pairwise equality loop of `Dialect.supports_kernel`:
`for ktype, arg_type in zip(...)` with plain `!=`. -/
def zipAllEq : List String → List String → Bool
  | ktype :: kts, atype :: ats =>
    if atype != ktype then false else zipAllEq kts ats
  | _, _ => true

/-- The kernel loop of `Dialect.supports_kernel`. -/
def Dialect.supportsKernelAux (probe : List String) : List DialectKernel → Bool
  | [] => false
  | sk :: rest =>
    if sk.arg_types.length != probe.length then Dialect.supportsKernelAux probe rest
    else if zipAllEq sk.arg_types probe then true
    else Dialect.supportsKernelAux probe rest

/-- `Dialect.supports_kernel`: scalar catalog only, exact positional equality. -/
def Dialect.supports_kernel (d : Dialect) (function_name : String) (kernel : Kernel) : Bool :=
  match pyDictGet d.scalar_functions_by_name function_name with
  | none => false
  | some dfunc => Dialect.supportsKernelAux kernel.arg_types dfunc.supported_kernels

/-- `Dialect._get_function_name`. -/
def Dialect.get_function_name (d : Dialect) (c : Case) : String :=
  let pfx := (pyDictGet d.func_prefixes c.base_uri).getD ""
  if pfx.length > 0 then pfx ++ "." ++ c.function else c.function

/-- The possible non-defect outcomes of `Dialect.mapping_for_case`:
`noMapping` is the Python `return None`; `pytestSkip` is the `pytest.skip`
control-flow exit taken when the `PYTEST_CURRENT_TEST` environment variable is
set; `mapping` is a returned `SqlMapping`. -/
inductive ResolveOutcome where
  | noMapping
  | pytestSkip (msg : String)
  | mapping (m : SqlMapping)
deriving DecidableEq

/-- The tail of `Dialect.mapping_for_case` once a catalog entry `dfunc` has
been found: kernel matching, then (only on kernel success) option matching. -/
def Dialect.mappingForFound (d : Dialect) (dfunc : DialectFunction) (c : Case) :
    Except String ResolveOutcome :=
  match Dialect.supports_case_kernel d dfunc c.args c.result with
  | Except.error e => Except.error e
  | Except.ok (some kernel_failure) =>
    Except.ok (ResolveOutcome.mapping
      ⟨dfunc.local_name, dfunc.infixFlag, dfunc.postfixFlag, dfunc.between,
       dfunc.aggregate, dfunc.unsupported, dfunc.extract, false, some kernel_failure⟩)
  | Except.ok none =>
    match Dialect.supports_options d dfunc c with
    | some option_failure =>
      Except.ok (ResolveOutcome.mapping
        ⟨dfunc.local_name, dfunc.infixFlag, dfunc.postfixFlag, dfunc.between,
         dfunc.aggregate, dfunc.unsupported, dfunc.extract, false, some option_failure⟩)
    | none =>
      Except.ok (ResolveOutcome.mapping
        ⟨dfunc.local_name, dfunc.infixFlag, dfunc.postfixFlag, dfunc.between,
         dfunc.aggregate, dfunc.unsupported, dfunc.extract, true, none⟩)

/-- `Dialect.mapping_for_case`.  The Boolean `pytestEnvSet` embeds the process
state `"PYTEST_CURRENT_TEST" in os.environ` read by the source; the Python
`dfunc_scalar or dfunc_aggregate` is the nested match (a `DialectFunction`
instance is always truthy, so `or` picks the scalar entry when present). -/
def Dialect.mapping_for_case (d : Dialect) (pytestEnvSet : Bool) (c : Case) :
    Except String ResolveOutcome :=
  let func_name := Dialect.get_function_name d c
  let dfunc_scalar := pyDictGet d.scalar_functions_by_name func_name
  let dfunc_aggregate := pyDictGet d.aggregate_functions_by_name func_name
  match dfunc_scalar with
  | none =>
    match dfunc_aggregate with
    | none =>
      if !pytestEnvSet then Except.ok ResolveOutcome.noMapping
      else Except.ok (ResolveOutcome.pytestSkip
        ("Skipping unsupported function. " ++ c.base_uri ++ "/" ++ c.function))
    | some dfunc => Dialect.mappingForFound d dfunc c
  | some dfunc => Dialect.mappingForFound d dfunc c

/-! ### Concrete fixtures used by the example conjuncts and witnesses -/

/-- An example function with the single kernel `(any, any) -> any`. -/
def anyAnyFn : DialectFunction :=
  ⟨"add", "add_loc", false, false, false, false, false, false, [], -1,
   [⟨["any", "any"], "any"⟩]⟩

/-- An example resolver holding only `anyAnyFn` as a scalar function. -/
def exDialect : Dialect := ⟨"testdialect", [("add", anyAnyFn)], [], []⟩

/-- An `i32` literal. -/
def litI32a : CaseLiteral := ⟨"i32", "1"⟩

/-- Another `i32` literal. -/
def litI32b : CaseLiteral := ⟨"i32", "2"⟩

/-- An `i64` literal. -/
def litI64 : CaseLiteral := ⟨"i64", "2"⟩

/-- An `fp64` literal. -/
def litFp64 : CaseLiteral := ⟨"fp64", "1.0"⟩

/-- A case whose function name is found in neither catalog map of `exDialect`. -/
def exUnknownCase : Case := ⟨"uri", "nosuch", [], CaseResult.error, []⟩

/-! ### C1 -/

/-- C1 counterexample: the outcome of `mapping_for_case` for an unknown
function name does depend on the `PYTEST_CURRENT_TEST` process environment
variable — with it set the resolver exits through `pytest.skip` instead of
returning the no-mapping outcome `None`. -/
theorem C1_env_dependence_counterexample :
    Dialect.mapping_for_case exDialect true exUnknownCase ≠
      Dialect.mapping_for_case exDialect false exUnknownCase ∧
    Dialect.mapping_for_case exDialect true exUnknownCase ≠
      Except.ok ResolveOutcome.noMapping := by
  have h1 : Dialect.mapping_for_case exDialect true exUnknownCase =
      Except.ok (ResolveOutcome.pytestSkip "Skipping unsupported function. uri/nosuch") := rfl
  have h2 : Dialect.mapping_for_case exDialect false exUnknownCase =
      Except.ok ResolveOutcome.noMapping := rfl
  rw [h1, h2]
  exact ⟨fun h => ResolveOutcome.noConfusion (Except.ok.inj h),
    fun h => ResolveOutcome.noConfusion (Except.ok.inj h)⟩

/-- C1 (amended): when `PYTEST_CURRENT_TEST` is absent from the process
environment, a case whose effective lookup name is found in neither the scalar
nor the aggregate function map resolves to the no-mapping outcome (`None`) —
not a raised defect and not a `SqlMapping` with `should_pass = false`. -/
theorem C1_unknown_function_no_mapping (d : Dialect) (c : Case)
    (hs : pyDictGet d.scalar_functions_by_name (Dialect.get_function_name d c) = none)
    (ha : pyDictGet d.aggregate_functions_by_name (Dialect.get_function_name d c) = none) :
    Dialect.mapping_for_case d false c = Except.ok ResolveOutcome.noMapping := by
  simp [Dialect.mapping_for_case, hs, ha]

/-- Witness for C1: the amended theorem applied to the concrete resolver
`exDialect` and the concrete case `exUnknownCase`. -/
theorem C1_unknown_function_no_mapping_witness :
    Dialect.mapping_for_case exDialect false exUnknownCase =
      Except.ok ResolveOutcome.noMapping :=
  C1_unknown_function_no_mapping exDialect exUnknownCase rfl rfl

/-! ### C2 -/

/-- The kernel loop with every kernel failing the arity check (for a
non-variadic function) keeps `arg_len_matched = False` and ends in the
raised defect. -/
lemma supportsCaseKernelAux_all_skipped (dn : String) (f : DialectFunction)
    (args : List CaseLiteral) (result : CaseResult) (hv : f.variadic_min = -1) :
    ∀ ks : List DialectKernel,
      (∀ sk ∈ ks, sk.arg_types.length ≠ effectiveArity f args) →
      Dialect.supportsCaseKernelAux dn f args result ks false =
        Except.error "Unreachable path.  Supported kernel with different # of types than case" := by
  intro ks
  induction ks with
  | nil => intro _; rfl
  | cons sk rest ih =>
    intro h
    have hlen : sk.arg_types.length ≠ effectiveArity f args := h sk (List.mem_cons_self _ _)
    have hrest := ih (fun k hk => h k (List.mem_cons_of_mem _ hk))
    have hc : (sk.arg_types.length != effectiveArity f args && f.variadic_min == -1) = true := by
      simp [bne_iff_ne, hlen, hv]
    simp only [Dialect.supportsCaseKernelAux, hc, if_true]
    exact hrest

/-- C2: for a non-variadic function none of whose declared kernels has
type-list length equal to the effective arity, kernel matching raises the
integrity-defect exception (`Except.error`), a distinct outcome from the
ordinary unsupported failure reason (`Except.ok (some reason)`). -/
theorem C2_arity_integrity_defect (d : Dialect) (f : DialectFunction)
    (args : List CaseLiteral) (result : CaseResult)
    (hv : f.variadic_min = -1)
    (h : ∀ sk ∈ f.supported_kernels, sk.arg_types.length ≠ effectiveArity f args) :
    Dialect.supports_case_kernel d f args result =
      Except.error "Unreachable path.  Supported kernel with different # of types than case" :=
  supportsCaseKernelAux_all_skipped d.name f args result hv f.supported_kernels h

/-- A non-variadic function whose only kernel takes two arguments. -/
def twoArgFn : DialectFunction :=
  ⟨"f2", "F2", false, false, false, false, false, false, [], -1,
   [⟨["i32", "i32"], "i32"⟩]⟩

/-- Witness for C2: a one-argument case against the two-argument kernel of a
non-variadic function raises the defect. -/
theorem C2_arity_integrity_defect_witness :
    Dialect.supports_case_kernel exDialect twoArgFn [litI32a] CaseResult.error =
      Except.error "Unreachable path.  Supported kernel with different # of types than case" :=
  C2_arity_integrity_defect exDialect twoArgFn [litI32a] CaseResult.error rfl (by decide)

/-! ### C7 -/

/-- C7 counterexample: the short-code table is not injective, so the inverse
dict is not a two-sided inverse: `toShort("fixedchar<N>") = "fchar"` but
`toCanonical("fchar") = "fixedchar"` (the later table entry wins), which
differs from `"fixedchar<N>"`. -/
theorem C7_roundtrip_counterexample :
    pyDictGet type_to_short_type "fixedchar<N>" = some "fchar" ∧
    pyDictGet short_type_to_type "fchar" = some "fixedchar" ∧
    ("fixedchar" : String) ≠ "fixedchar<N>" := by
  refine ⟨rfl, rfl, ?_⟩
  decide

/-- The parametrized table entries together with the unparametrized family
name each collapses to in the last-write-wins inverse table. -/
def param_collapsed : List (String × String) := [
  ("fixedchar<N>", "fixedchar"),
  ("varchar<N>", "varchar"),
  ("fixedbinary<N>", "fixedbinary"),
  ("decimal<P,S>", "decimal"),
  ("precision_timestamp<P>", "precision_timestamp"),
  ("precision_timestamp_tz<P>", "precision_timestamp_tz"),
  ("struct<T1,T2,...,TN>", "struct"),
  ("list<T>", "list"),
  ("map<K,V>", "map")]

/-! ### C3 -/

/-- An assignment of wildcard names agrees with every binding recorded in the
per-attempt wildcard map. -/
def amConsistent (σ : String → String) (m : List (String × String)) : Prop :=
  ∀ k v, amLookup m k = some v → σ k = v

/-- What one declared-type/actual-type pair demands of an assignment: a
wildcard (declared name starting with `any`) must be assigned the actual type,
a concrete declared type must equal the actual type. -/
def pairRespects (σ : String → String) (p : String × String) : Prop :=
  if pyStartsWith p.1 "any" then σ p.1 = p.2 else p.1 = p.2

lemma amConsistent_nil (σ : String → String) : amConsistent σ [] := by
  intro k v h
  simp [amLookup] at h

lemma amConsistent_getD (m : List (String × String)) :
    amConsistent (fun k => (amLookup m k).getD "") m := by
  intro k v h
  simp [h]

lemma amLookup_cons (k a key : String) (m : List (String × String)) :
    amLookup ((k, a) :: m) key = if key = k then some a else amLookup m key := rfl

lemma amConsistent_cons {σ : String → String} {m : List (String × String)} {k a : String}
    (hL : amLookup m k = none) :
    amConsistent σ ((k, a) :: m) ↔ amConsistent σ m ∧ σ k = a := by
  constructor
  · intro h
    refine ⟨fun k' v hv => ?_, h k a (by rw [amLookup_cons, if_pos rfl])⟩
    by_cases hk : k' = k
    · subst hk
      rw [hL] at hv
      exact absurd hv (by simp)
    · exact h k' v (by rw [amLookup_cons, if_neg hk]; exact hv)
  · rintro ⟨hc, hk⟩ k' v hv
    rw [amLookup_cons] at hv
    by_cases hkk : k' = k
    · subst hkk
      rw [if_pos rfl] at hv
      cases hv
      exact hk
    · rw [if_neg hkk] at hv
      exact hc k' v hv

lemma kernelZipMatch_nil_left (m : List (String × String)) (ats : List String) :
    kernelZipMatch m [] ats = true := rfl

lemma kernelZipMatch_nil_right (m : List (String × String)) (k : String) (kts : List String) :
    kernelZipMatch m (k :: kts) [] = true := rfl

lemma kernelZipMatch_cons (m : List (String × String)) (ktype atype : String)
    (kts ats : List String) :
    kernelZipMatch m (ktype :: kts) (atype :: ats) =
      if atype != ktype && !pyStartsWith ktype "any" then false
      else if pyStartsWith ktype "any" then
        match amLookup m ktype with
        | none => kernelZipMatch ((ktype, atype) :: m) kts ats
        | some t => if t != atype then false else kernelZipMatch m kts ats
      else kernelZipMatch m kts ats := rfl

/-- The unification loop succeeds exactly when some assignment of wildcard
names to concrete types respects the already-recorded bindings and every
declared/actual pair in lock-step order. -/
lemma kernelZipMatch_iff_assign (kts : List String) :
    ∀ (ats : List String) (m : List (String × String)),
      kernelZipMatch m kts ats = true ↔
        ∃ σ : String → String, amConsistent σ m ∧
          ∀ p ∈ kts.zip ats, pairRespects σ p := by
  induction kts with
  | nil =>
    intro ats m
    rw [kernelZipMatch_nil_left]
    constructor
    · intro _
      exact ⟨fun key => (amLookup m key).getD "", amConsistent_getD m, by simp⟩
    · intro _
      rfl
  | cons k kts ih =>
    intro ats m
    cases ats with
    | nil =>
      rw [kernelZipMatch_nil_right]
      constructor
      · intro _
        exact ⟨fun key => (amLookup m key).getD "", amConsistent_getD m, by simp⟩
      · intro _
        rfl
    | cons a ats =>
      rw [kernelZipMatch_cons, List.zip_cons_cons]
      by_cases hW : pyStartsWith k "any" = true
      · have h1 : (a != k && !pyStartsWith k "any") = false := by simp [hW]
        rw [h1]
        simp only [Bool.false_eq_true, if_false, hW, if_true]
        cases hL : amLookup m k with
        | none =>
          rw [ih ats ((k, a) :: m)]
          constructor
          · rintro ⟨σ, hc, hp⟩
            rcases (amConsistent_cons hL).1 hc with ⟨hcm, hka⟩
            refine ⟨σ, hcm, fun p hp' => ?_⟩
            rcases List.mem_cons.1 hp' with h | h
            · subst h
              simp [pairRespects, hW, hka]
            · exact hp p h
          · rintro ⟨σ, hc, hp⟩
            have hka : σ k = a := by
              have := hp (k, a) (List.mem_cons_self _ _)
              simpa [pairRespects, hW] using this
            exact ⟨σ, (amConsistent_cons hL).2 ⟨hc, hka⟩,
              fun p h => hp p (List.mem_cons_of_mem _ h)⟩
        | some t =>
          show (if (t != a) = true then false else kernelZipMatch m kts ats) = true ↔
            ∃ σ : String → String, amConsistent σ m ∧
              ∀ p ∈ (k, a) :: kts.zip ats, pairRespects σ p
          by_cases hT : (t != a) = true
          · rw [if_pos hT]
            have hta : t ≠ a := by simpa [bne_iff_ne] using hT
            simp only [Bool.false_eq_true, false_iff]
            rintro ⟨σ, hc, hp⟩
            have h1' : σ k = t := hc k t hL
            have h2' : σ k = a := by
              have := hp (k, a) (List.mem_cons_self _ _)
              simpa [pairRespects, hW] using this
            exact hta (h1' ▸ h2')
          · rw [if_neg hT]
            have hta : t = a := by simpa [bne_iff_ne] using hT
            subst hta
            rw [ih ats m]
            constructor
            · rintro ⟨σ, hc, hp⟩
              refine ⟨σ, hc, fun p hp' => ?_⟩
              rcases List.mem_cons.1 hp' with h | h
              · subst h
                simp [pairRespects, hW, hc k t hL]
              · exact hp p h
            · rintro ⟨σ, hc, hp⟩
              exact ⟨σ, hc, fun p h => hp p (List.mem_cons_of_mem _ h)⟩
      · by_cases hE : a = k
        · subst hE
          have h1 : (a != a && !pyStartsWith a "any") = false := by simp
          rw [h1]
          simp only [Bool.false_eq_true, if_false, hW, if_false]
          rw [ih ats m]
          constructor
          · rintro ⟨σ, hc, hp⟩
            refine ⟨σ, hc, fun p hp' => ?_⟩
            rcases List.mem_cons.1 hp' with h | h
            · subst h
              simp [pairRespects, hW]
            · exact hp p h
          · rintro ⟨σ, hc, hp⟩
            exact ⟨σ, hc, fun p h => hp p (List.mem_cons_of_mem _ h)⟩
        · have h1 : (a != k && !pyStartsWith k "any") = true := by
            simp [bne_iff_ne, hE, hW]
          rw [h1]
          simp only [if_true, Bool.false_eq_true, false_iff]
          rintro ⟨σ, _, hp⟩
          have := hp (k, a) (List.mem_cons_self _ _)
          rw [pairRespects, if_neg (by simpa using hW)] at this
          exact hE this.symm

/-- C3: the unification loop started with an empty wildcard map succeeds iff
some assignment of wildcard names satisfies every declared/actual pair
(wildcards — declared types with prefix `any` — bind to one concrete type per
attempt, concrete declared types must be equal); concretely, the kernel
`(any, any)` matches case arguments `(i32, i32)` and fails `(i32, i64)` with
a kernel-mismatch reason. -/
theorem C3_wildcard_unification :
    (∀ kts ats : List String,
      kernelZipMatch [] kts ats = true ↔
        ∃ σ : String → String, ∀ p ∈ kts.zip ats, pairRespects σ p) ∧
    Dialect.supports_case_kernel exDialect anyAnyFn [litI32a, litI32b] CaseResult.error =
      Except.ok none ∧
    (∃ msg, Dialect.supports_case_kernel exDialect anyAnyFn [litI32a, litI64] CaseResult.error =
      Except.ok (some msg)) := by
  refine ⟨?_, rfl, ⟨_, rfl⟩⟩
  intro kts ats
  rw [kernelZipMatch_iff_assign]
  constructor
  · rintro ⟨σ, _, hp⟩
    exact ⟨σ, hp⟩
  · rintro ⟨σ, hp⟩
    exact ⟨σ, amConsistent_nil σ, hp⟩

/-! ### C4 -/

lemma pyListMul_singleton (t : String) : ∀ n, pyListMul [t] n = List.replicate n t := by
  intro n
  induction n with
  | zero => rfl
  | succ n ih => simp [pyListMul, List.replicate, ih]

/-- A variadic function (`variadic_min = 1`) with the single kernel
`(fp64) -> fp64`. -/
def varFp64Fn : DialectFunction :=
  ⟨"sum3", "SUM3", false, false, false, false, false, false, [], 1,
   [⟨["fp64"], "fp64"⟩]⟩

/-- C4: for a variadic function whose declared kernel has a single type `t`,
kernel matching succeeds exactly when the unification loop accepts `t`
repeated once per actual argument; concretely the single-entry kernel `(fp64)`
of a `variadic_min = 1` function matches three `fp64` arguments and fails
against `(fp64, i32)`. -/
theorem C4_variadic_broadcast :
    (∀ (d : Dialect) (f : DialectFunction) (t rt : String) (args : List CaseLiteral)
        (result : CaseResult),
      f.variadic_min ≠ -1 → f.supported_kernels = [⟨[t], rt⟩] →
      (Dialect.supports_case_kernel d f args result = Except.ok none ↔
        kernelZipMatch [] (List.replicate args.length t)
          (args.map (fun a => a.type)) = true)) ∧
    Dialect.supports_case_kernel exDialect varFp64Fn [litFp64, litFp64, litFp64]
      CaseResult.error = Except.ok none ∧
    (∃ msg, Dialect.supports_case_kernel exDialect varFp64Fn [litFp64, litI32a]
      CaseResult.error = Except.ok (some msg)) := by
  refine ⟨?_, rfl, ⟨_, rfl⟩⟩
  intro d f t rt args result hv hk
  unfold Dialect.supports_case_kernel
  rw [hk]
  have hv' : (f.variadic_min == -1) = false := by simp [hv]
  have hb : (f.variadic_min != -1 && ([t] : List String).length == 1) = true := by
    simp [bne_iff_ne, hv]
  simp only [Dialect.supportsCaseKernelAux, hv', Bool.and_false, Bool.false_eq_true, if_false,
    hb, if_true, pyListMul_singleton]
  cases hm : kernelZipMatch [] (List.replicate args.length t) (args.map (fun a => a.type)) with
  | true => simp [hm]
  | false => simp [hm, Dialect.supportsCaseKernelAux]

/-- Witness for C4: the broadcast equivalence applied to `varFp64Fn` and a
concrete one-argument case. -/
theorem C4_variadic_broadcast_witness :
    Dialect.supports_case_kernel exDialect varFp64Fn [litFp64] CaseResult.error =
        Except.ok none ↔
      kernelZipMatch [] (List.replicate 1 "fp64") ["fp64"] = true :=
  C4_variadic_broadcast.1 exDialect varFp64Fn "fp64" "fp64" [litFp64] CaseResult.error
    (by decide) rfl

/-! ### C5 -/

/-- An aggregate function with one kernel of declared arity 1. -/
def aggFn : DialectFunction :=
  ⟨"mysum", "MYSUM", false, false, false, true, false, false, [], -1,
   [⟨["i32"], "i32"⟩]⟩

/-- C5: the effective required arity used by kernel matching is 1 for
aggregate functions regardless of the number of case arguments, and is the
number of case arguments otherwise; consequently an aggregate function with a
kernel of declared arity 1 passes the arity check (the loop ends in a normal
`Except.ok` outcome, never in the arity defect) for any argument list. -/
theorem C5_aggregate_arity :
    (∀ (f : DialectFunction) (args : List CaseLiteral),
      f.aggregate = true → effectiveArity f args = 1) ∧
    (∀ (f : DialectFunction) (args : List CaseLiteral),
      f.aggregate = false → effectiveArity f args = args.length) ∧
    (∀ (d : Dialect) (f : DialectFunction) (sk : DialectKernel) (args : List CaseLiteral)
        (result : CaseResult),
      f.aggregate = true → f.supported_kernels = [sk] → sk.arg_types.length = 1 →
      ∃ r, Dialect.supports_case_kernel d f args result = Except.ok r) := by
  refine ⟨?_, ?_, ?_⟩
  · intro f args hf
    simp [effectiveArity, hf]
  · intro f args hf
    simp [effectiveArity, hf]
  · intro d f sk args result hagg hk hlen
    unfold Dialect.supports_case_kernel
    rw [hk]
    have hskip : (sk.arg_types.length != effectiveArity f args && f.variadic_min == -1) = false := by
      simp [effectiveArity, hagg, hlen]
    simp only [Dialect.supportsCaseKernelAux, hskip, Bool.false_eq_true, if_false]
    split
    · split
      · exact ⟨none, rfl⟩
      · exact ⟨_, rfl⟩
    · split
      · exact ⟨none, rfl⟩
      · exact ⟨_, rfl⟩

/-- Witness for C5: the aggregate arity collapse applied to `aggFn` and a
three-argument case. -/
theorem C5_aggregate_arity_witness :
    effectiveArity aggFn [litI32a, litI32b, litI64] = 1 ∧
    (∃ r, Dialect.supports_case_kernel exDialect aggFn [litI32a, litI32b, litI64]
      CaseResult.error = Except.ok r) :=
  ⟨C5_aggregate_arity.1 aggFn [litI32a, litI32b, litI64] rfl,
   C5_aggregate_arity.2.2 exDialect aggFn ⟨["i32"], "i32"⟩ [litI32a, litI32b, litI64]
     CaseResult.error rfl rfl rfl⟩

/-! ### C6 -/

/-- C6: option matching succeeds iff every requested (key, value) pair is
either unconstrained by `required_options` or mandated at exactly the
requested value; a mismatch at the head of the option list yields the message
naming the dialect, the key, the mandated value and the requested value; and
in `mapping_for_case` option matching is only consulted after kernel matching
succeeded — a kernel failure reason takes precedence. -/
theorem C6_option_matching :
    (∀ (dn : String) (f : DialectFunction) (opts : List (String × String)),
      optionsLoop dn f opts = none ↔
        ∀ p ∈ opts, ∀ dval, pyDictGet f.required_options p.1 = some dval → dval = p.2) ∧
    (∀ (dn : String) (f : DialectFunction) (k v : String) (rest : List (String × String))
        (dval : String),
      pyDictGet f.required_options k = some dval → dval ≠ v →
      optionsLoop dn f ((k, v) :: rest) =
        some ("The dialect " ++ dn ++ " expects " ++ k ++ "=" ++ dval ++
          " but " ++ k ++ "=" ++ v ++ " was requested")) ∧
    (∀ (d : Dialect) (env : Bool) (c : Case) (f : DialectFunction) (r : String),
      pyDictGet d.scalar_functions_by_name (Dialect.get_function_name d c) = some f →
      Dialect.supports_case_kernel d f c.args c.result = Except.ok (some r) →
      Dialect.mapping_for_case d env c =
        Except.ok (ResolveOutcome.mapping
          ⟨f.local_name, f.infixFlag, f.postfixFlag, f.between, f.aggregate,
           f.unsupported, f.extract, false, some r⟩)) := by
  refine ⟨?_, ?_, ?_⟩
  · intro dn f opts
    induction opts with
    | nil => simp [optionsLoop]
    | cons p rest ih =>
      obtain ⟨k, v⟩ := p
      cases hL : pyDictGet f.required_options k with
      | none =>
        simp only [optionsLoop, hL]
        rw [ih]
        constructor
        · intro h p hp dval hd
          rcases List.mem_cons.1 hp with h' | h'
          · subst h'
            rw [hL] at hd
            cases hd
          · exact h p h' dval hd
        · intro h p hp
          exact h p (List.mem_cons_of_mem _ hp)
      | some dval =>
        by_cases hv : (dval != v) = true
        · have hne : dval ≠ v := by simpa [bne_iff_ne] using hv
          simp only [optionsLoop, hL, if_pos hv]
          constructor
          · intro h
            exact Option.noConfusion h
          · intro h
            exact absurd (h (k, v) (List.mem_cons_self _ _) dval hL) hne
        · have hdv : dval = v := by simpa [bne_iff_ne] using hv
          simp only [optionsLoop, hL, if_neg hv]
          rw [ih]
          constructor
          · intro h p hp dval' hd
            rcases List.mem_cons.1 hp with h' | h'
            · subst h'
              rw [hL] at hd
              cases hd
              exact hdv
            · exact h p h' dval' hd
          · intro h p hp
            exact h p (List.mem_cons_of_mem _ hp)
  · intro dn f k v rest dval hL hne
    have hv : (dval != v) = true := by simpa [bne_iff_ne] using hne
    simp [optionsLoop, hL, hv]
  · intro d env c f r hs hk
    simp [Dialect.mapping_for_case, Dialect.mappingForFound, hs, hk]

/-- A function mandating the option `rounding=TRUNCATE`, whose only kernel is
`(i64) -> i64`. -/
def optFn : DialectFunction :=
  ⟨"round_fn", "ROUND", false, false, false, false, false, false,
   [("rounding", "TRUNCATE")], -1, [⟨["i64"], "i64"⟩]⟩

/-- A resolver holding `optFn`. -/
def dOpt : Dialect := ⟨"testd6", [("round_fn", optFn)], [], []⟩

/-- A case that both fails `optFn`'s kernel (arg `i32` against `i64`) and
requests a mismatching option value. -/
def caseOpt : Case :=
  ⟨"uri", "round_fn", [litI32a], CaseResult.error, [("rounding", "HALF_EVEN")]⟩

/-- Witness for C6: the concrete mismatch message, and kernel-failure
precedence on a case whose options also mismatch. -/
theorem C6_option_matching_witness :
    optionsLoop "testd6" optFn [("rounding", "HALF_EVEN")] =
      some "The dialect testd6 expects rounding=TRUNCATE but rounding=HALF_EVEN was requested" ∧
    Dialect.mapping_for_case dOpt false caseOpt =
      Except.ok (ResolveOutcome.mapping
        ⟨"ROUND", false, false, false, false, false, false, false,
         some ("The dialect testd6 does not support the kernel " ++
           case_to_kernel_str "round_fn" [litI32a] CaseResult.error)⟩) :=
  ⟨C6_option_matching.2.1 "testd6" optFn "rounding" "HALF_EVEN" [] "TRUNCATE" rfl (by decide),
   C6_option_matching.2.2 dOpt false caseOpt optFn _ rfl rfl⟩

/-! ### C8 -/

lemma zipAllEq_cons (k a : String) (ks as2 : List String) :
    zipAllEq (k :: ks) (a :: as2) = if a != k then false else zipAllEq ks as2 := rfl

lemma zipAllEq_iff (ks : List String) :
    ∀ as2 : List String, ks.length = as2.length → (zipAllEq ks as2 = true ↔ ks = as2) := by
  induction ks with
  | nil =>
    intro as2 h
    cases as2 with
    | nil => simp [zipAllEq]
    | cons a as2 => simp at h
  | cons k ks ih =>
    intro as2 h
    cases as2 with
    | nil => simp at h
    | cons a as2 =>
      simp only [List.length_cons, Nat.succ.injEq] at h
      by_cases he : a = k
      · subst he
        rw [zipAllEq_cons, bne_self_eq_false]
        simp only [Bool.false_eq_true, if_false]
        rw [ih as2 h]
        simp
      · have hb : (a != k) = true := by simpa [bne_iff_ne] using he
        rw [zipAllEq_cons, if_pos hb]
        constructor
        · intro hfalse
          exact absurd hfalse (by simp)
        · intro heq
          cases heq
          exact absurd rfl he

lemma supportsKernelAux_iff (probe : List String) (ks : List DialectKernel) :
    Dialect.supportsKernelAux probe ks = true ↔ ∃ sk ∈ ks, sk.arg_types = probe := by
  induction ks with
  | nil => simp [Dialect.supportsKernelAux]
  | cons sk rest ih =>
    by_cases hl : (sk.arg_types.length != probe.length) = true
    · have hne : sk.arg_types.length ≠ probe.length := by simpa [bne_iff_ne] using hl
      simp only [Dialect.supportsKernelAux, hl, if_true]
      rw [ih]
      constructor
      · rintro ⟨sk', hk, he⟩
        exact ⟨sk', List.mem_cons_of_mem _ hk, he⟩
      · rintro ⟨sk', hk, he⟩
        rcases List.mem_cons.1 hk with h | h
        · subst h
          exact absurd (congrArg List.length he) hne
        · exact ⟨sk', h, he⟩
    · have hle : sk.arg_types.length = probe.length := by simpa [bne_iff_ne] using hl
      have hl' : (sk.arg_types.length != probe.length) = false := by
        simp [bne_iff_ne, hle]
      simp only [Dialect.supportsKernelAux, hl', Bool.false_eq_true, if_false]
      by_cases hz : zipAllEq sk.arg_types probe = true
      · have heq : sk.arg_types = probe := (zipAllEq_iff _ _ hle).1 hz
        simp only [hz, if_true]
        constructor
        · intro _
          exact ⟨sk, List.mem_cons_self _ _, heq⟩
        · intro _
          trivial
      · have hz' : zipAllEq sk.arg_types probe = false := by
          simpa using hz
        simp only [hz', Bool.false_eq_true, if_false]
        rw [ih]
        constructor
        · rintro ⟨sk', hk, he⟩
          exact ⟨sk', List.mem_cons_of_mem _ hk, he⟩
        · rintro ⟨sk', hk, he⟩
          rcases List.mem_cons.1 hk with h | h
          · subst h
            have := (zipAllEq_iff _ _ hle).2 he
            rw [hz'] at this
            cases this
          · exact ⟨sk', h, he⟩

/-- A scalar function declaring the single wildcard kernel `(any) -> any`. -/
def anyKernelFn : DialectFunction :=
  ⟨"f8", "F8", false, false, false, false, false, false, [], -1,
   [⟨["any"], "any"⟩]⟩

/-- A resolver holding `anyKernelFn` as a scalar function. -/
def dAny : Dialect := ⟨"testd8", [("f8", anyKernelFn)], [], []⟩

/-- C8: the direct kernel existence check succeeds iff the named function is
in the scalar catalog and some declared kernel's argument-type list is equal,
position by position (hence as lists), to the probe — in particular a declared
wildcard `any` does not match a concrete probe type `i32`. -/
theorem C8_supports_kernel_exact :
    (∀ (d : Dialect) (fname : String) (k : Kernel),
      Dialect.supports_kernel d fname k = true ↔
        ∃ dfunc, pyDictGet d.scalar_functions_by_name fname = some dfunc ∧
          ∃ sk ∈ dfunc.supported_kernels, sk.arg_types = k.arg_types) ∧
    Dialect.supports_kernel dAny "f8" ⟨["i32"], "i32"⟩ = false := by
  refine ⟨?_, rfl⟩
  intro d fname k
  unfold Dialect.supports_kernel
  cases hs : pyDictGet d.scalar_functions_by_name fname with
  | none => simp
  | some dfunc =>
    show Dialect.supportsKernelAux k.arg_types dfunc.supported_kernels = true ↔ _
    rw [supportsKernelAux_iff]
    constructor
    · intro h
      exact ⟨dfunc, rfl, h⟩
    · rintro ⟨df, hdf, sk, hsk, he⟩
      cases hdf
      exact ⟨sk, hsk, he⟩

/-! ### C9 -/

lemma kernelZipMatch_take (kts : List String) :
    ∀ (ats : List String) (m : List (String × String)),
      kernelZipMatch m kts ats = kernelZipMatch m kts (ats.take kts.length) := by
  induction kts with
  | nil =>
    intro ats m
    rfl
  | cons k kts ih =>
    intro ats m
    cases ats with
    | nil => rfl
    | cons a ats =>
      rw [List.length_cons, List.take_succ_cons, kernelZipMatch_cons, kernelZipMatch_cons]
      by_cases h1 : (a != k && !pyStartsWith k "any") = true
      · rw [if_pos h1, if_pos h1]
      · rw [if_neg h1, if_neg h1]
        by_cases hW : pyStartsWith k "any" = true
        · rw [if_pos hW, if_pos hW]
          cases hL : amLookup m k with
          | none => exact ih ats ((k, a) :: m)
          | some t =>
            show (if (t != a) = true then false else kernelZipMatch m kts ats) =
              (if (t != a) = true then false else kernelZipMatch m kts (ats.take kts.length))
            by_cases hT : (t != a) = true
            · rw [if_pos hT, if_pos hT]
            · rw [if_neg hT, if_neg hT]
              exact ih ats m
        · rw [if_neg hW, if_neg hW]
          exact ih ats m

/-- A variadic (`variadic_min = 2`) function with the two-entry kernel
`(i32, i32) -> i32`. -/
def varTwoFn : DialectFunction :=
  ⟨"f9", "F9", false, false, false, false, false, false, [], 2,
   [⟨["i32", "i32"], "i32"⟩]⟩

/-- A resolver holding `varTwoFn`. -/
def d9 : Dialect := ⟨"testd9", [("f9", varTwoFn)], [], []⟩

/-- A case passing three arguments — one more than `varTwoFn`'s kernel
declares, the extra one of a type the kernel could never accept. -/
def case9 : Case :=
  ⟨"uri", "f9", [litI32a, litI32b, ⟨"string", "x"⟩], CaseResult.lit ⟨"i32", "3"⟩, []⟩

/-- C9: positional unification walks pairs in lock-step and stops at the
shorter sequence — the loop's result only depends on the first
`kts.length` actual arguments; concretely, a three-argument case against the
surviving two-entry kernel of a variadic function resolves with
`should_pass = true` although its trailing `string` argument is never
checked. -/
theorem C9_zip_truncation :
    (∀ (kts ats : List String) (m : List (String × String)),
      kernelZipMatch m kts ats = kernelZipMatch m kts (ats.take kts.length)) ∧
    Dialect.mapping_for_case d9 false case9 =
      Except.ok (ResolveOutcome.mapping
        ⟨"F9", false, false, false, false, false, false, true, none⟩) :=
  ⟨fun kts ats m => kernelZipMatch_take kts ats m, rfl⟩

/-! ### C10 -/

lemma supportsCaseKernelAux_vmin (dn : String) (f : DialectFunction)
    (args : List CaseLiteral) (result : CaseResult) (m m' : Int)
    (hm : m ≠ -1) (hm' : m' ≠ -1) :
    ∀ (ks : List DialectKernel) (acc : Bool),
      Dialect.supportsCaseKernelAux dn { f with variadic_min := m } args result ks acc =
        Dialect.supportsCaseKernelAux dn { f with variadic_min := m' } args result ks acc := by
  intro ks
  induction ks with
  | nil =>
    intro acc
    rfl
  | cons sk rest ih =>
    intro acc
    have hm1 : ((m : Int) == -1) = false := by simp [hm]
    have hm2 : ((m' : Int) == -1) = false := by simp [hm']
    have hb1 : ((m : Int) != -1) = true := by simp [bne_iff_ne, hm]
    have hb2 : ((m' : Int) != -1) = true := by simp [bne_iff_ne, hm']
    simp only [Dialect.supportsCaseKernelAux, effectiveArity, hm1, hm2, hb1, hb2,
      Bool.and_false, Bool.false_eq_true, if_false, Bool.true_and]
    rw [ih true]

/-- A variadic function with `variadic_min = 3` and the single kernel
`(fp64) -> fp64`. -/
def varMin3Fn : DialectFunction :=
  ⟨"g10", "G10", false, false, false, false, false, false, [], 3,
   [⟨["fp64"], "fp64"⟩]⟩

/-- A resolver holding `varMin3Fn`. -/
def d10 : Dialect := ⟨"testd10", [("g10", varMin3Fn)], [], []⟩

/-- A case supplying zero arguments to `varMin3Fn`, fewer than its
`variadic_min` of 3. -/
def case10 : Case := ⟨"uri", "g10", [], CaseResult.lit ⟨"fp64", "0"⟩, []⟩

/-- C10: kernel matching never compares the numeric value of `variadic_min`
with the argument count — any two non-`-1` values give identical results —
and a case with fewer arguments than `variadic_min` (here zero against a
minimum of 3) still resolves with `should_pass = true` once unification of
the supplied arguments succeeds. -/
theorem C10_variadic_min_value_unused :
    (∀ (d : Dialect) (f : DialectFunction) (args : List CaseLiteral) (result : CaseResult)
        (m m' : Int), m ≠ -1 → m' ≠ -1 →
      Dialect.supports_case_kernel d { f with variadic_min := m } args result =
        Dialect.supports_case_kernel d { f with variadic_min := m' } args result) ∧
    Dialect.mapping_for_case d10 false case10 =
      Except.ok (ResolveOutcome.mapping
        ⟨"G10", false, false, false, false, false, false, true, none⟩) := by
  refine ⟨?_, rfl⟩
  intro d f args result m m' hm hm'
  exact supportsCaseKernelAux_vmin d.name f args result m m' hm hm' f.supported_kernels false

/-- Witness for C10: the value-irrelevance of `variadic_min` applied at the
concrete minima 3 and 7. -/
theorem C10_variadic_min_value_unused_witness :
    Dialect.supports_case_kernel d10 { varMin3Fn with variadic_min := 3 } [] CaseResult.error =
      Dialect.supports_case_kernel d10 { varMin3Fn with variadic_min := 7 } [] CaseResult.error :=
  C10_variadic_min_value_unused.1 d10 varMin3Fn [] CaseResult.error 3 7 (by decide) (by decide)

/-- C7 (amended): for every entry of the authoritative table,
`toCanonical (toShort name)` gives back `name` itself — except for the nine
parametrized forms, whose short code is shared with a later table entry and
whose roundtrip therefore yields the collapsed unparametrized family name. -/
theorem C7_shorthand_roundtrip_amended :
    (type_to_short_type.all (fun p =>
      pyDictGet type_to_short_type p.1 == some p.2) = true) ∧
    (type_to_short_type.all (fun p =>
      pyDictGet short_type_to_type p.2 ==
        some ((amLookup param_collapsed p.1).getD p.1)) = true) := by
  constructor <;> decide
